import Mathlib

/-!
Shallow embedding of `src/service-worker.js` (Block Canvas Telegram mini-app
service worker): a cache-first service worker with precache on install,
old-cache cleanup on activate, stale-while-revalidate on hit, store-on-miss,
and a message-driven purge command.

Modelling choices:
* A `Response` is its status code, its `type` tag (`"basic"`, `"cors"`, ...)
  and its body bytes; a `Request` is its method, full URL, origin and mode.
* The cache storage (`caches`) is an association list from store name to
  store; a store is an association list from URL key to response, first
  binding wins, `put` overwrites in place.
* The network is an oracle `Net : String → Option Response`; `none` models a
  rejected fetch.
* Fire-and-forget writes (`caches.open(...).then(cache => cache.put(...))`
  without awaiting, in `fetchAndCache` and `updateCacheInBackground`) are
  modelled as a list of pending `Task`s returned by the fetch handler; they
  mutate the cache state only when `runTasks` settles them, after the
  handler's response has been produced.
* `caches.match(request)` is `CacheStorage.match`: it searches every named
  cache in order, not only the worker's own cache (`cachesMatchAll`).
* `cache.addAll` / `cache.add` (Cache API) reject a fetch failure or a
  response whose status is not ok (2xx); `addAll` is atomic (nothing stored
  on failure).
-/

namespace BlockTMA

/-- Captured response: status code, `type` tag and body bytes. -/
structure Response where
  status : Nat
  rtype : String
  body : String
deriving DecidableEq, Repr

/-- Intercepted request: method, full URL, origin of the URL, and mode
(`"navigate"` for page navigations). -/
structure Request where
  method : String
  url : String
  origin : String
  mode : String
deriving DecidableEq, Repr

/-- One named cache: URL key to stored response, first binding wins. -/
abbrev Store := List (String × Response)

/-- The cache storage: named stores in creation order. -/
abbrev Caches := List (String × Store)

/-- Network oracle: fetch a URL, `none` is a rejected fetch. -/
abbrev Net := String → Option Response

/-- Substring test, the embedding of an unanchored regex literal such as
`/telegram\.org/` applied to a URL string. -/
def containsSub (needle s : String) : Bool :=
  decide (List.IsInfix needle.data s.data)

/-- Suffix test, the embedding of an anchored regex literal such as
`/\.js$/` applied to a URL string. -/
def suffixOf (suffix s : String) : Bool :=
  decide (List.IsSuffix suffix.data s.data)

/-- `const CACHE_NAME = 'block-canvas-telegram-v1'` (line 8). -/
def CACHE_NAME : String := "block-canvas-telegram-v1"

/-- `PRECACHE_URLS` (lines 12-21). -/
def PRECACHE_URLS : List String :=
  ["/", "/index.html", "/style.css", "/application.js",
   "/src/polyfills.bundle.js", "/src/system.bundle.js",
   "/src/import-map.json", "/index.js"]

/-- `CACHEABLE_PATTERNS.some(p => p.test(request.url))` (lines 24-34):
each pattern is an anchored extension test on the full URL. -/
def isCacheable (url : String) : Bool :=
  suffixOf ".js" url || suffixOf ".css" url || suffixOf ".png" url ||
  suffixOf ".jpg" url || suffixOf ".webp" url || suffixOf ".mp3" url ||
  suffixOf ".ogg" url || suffixOf ".json" url || suffixOf ".wasm" url

/-- `NEVER_CACHE.some(p => p.test(request.url))` (lines 37-45). -/
def neverCache (url : String) : Bool :=
  containsSub "telegram.org" url || containsSub "tganalytics.xyz" url ||
  containsSub "api." url || suffixOf ".php" url ||
  containsSub "cloudflare" url || containsSub "ws:" url ||
  containsSub "wss:" url

/-- Exact-key lookup in one store. -/
def storeMatch (s : Store) (key : String) : Option Response :=
  match s with
  | [] => none
  | (k, r) :: rest => if k = key then some r else storeMatch rest key

/-- `cache.put(request, response)`: overwrite the binding for `key`, append
if absent. -/
def storePut (s : Store) (key : String) (r : Response) : Store :=
  match s with
  | [] => [(key, r)]
  | (k, v) :: rest =>
    if k = key then (k, r) :: rest else (k, v) :: storePut rest key r

/-- Lookup a named store in the cache storage. -/
def cachesGet (c : Caches) (name : String) : Option Store :=
  match c with
  | [] => none
  | (n, s) :: rest => if n = name then some s else cachesGet rest name

/-- `caches.open(name)` followed by mutating the opened store with `f`:
creates an empty store first when `name` is absent. -/
def cachesUpdateStore (c : Caches) (name : String) (f : Store → Store) :
    Caches :=
  match c with
  | [] => [(name, f [])]
  | (n, s) :: rest =>
    if n = name then (n, f s) :: rest
    else (n, s) :: cachesUpdateStore rest name f

/-- `caches.open(CACHE_NAME).then(cache => cache.put(request, r))`. -/
def cachesPut (c : Caches) (name key : String) (r : Response) : Caches :=
  cachesUpdateStore c name (fun s => storePut s key r)

/-- `caches.match(request)` (`CacheStorage.match`): search every named cache
in creation order, first hit wins. -/
def cachesMatchAll (c : Caches) (key : String) : Option Response :=
  match c with
  | [] => none
  | (_, s) :: rest =>
    match storeMatch s key with
    | some r => some r
    | none => cachesMatchAll rest key

/-- `caches.delete(name)`: removes the named store and all its entries. -/
def cachesDelete (c : Caches) (name : String) : Caches :=
  c.filter (fun p => p.1 ≠ name)

/-- Cache API admission used by `cache.add` / `cache.addAll`: the request's
fetch must resolve and its status must be ok (2xx). -/
def respOk (r : Response) : Bool :=
  200 ≤ r.status && r.status < 300

/-- Whether every manifest URL fetches successfully with an ok status, the
success condition of the atomic `cache.addAll(PRECACHE_URLS)` (line 56). -/
def fetchAllOk (net : Net) (urls : List String) : Bool :=
  urls.all (fun u =>
    match net u with
    | some r => respOk r
    | none => false)

/-- One step of the fallback precache: `cache.add(url)` with its `.catch`
skipping the failure — store the fetched response when it resolves with an
ok status, otherwise leave the store unchanged. -/
def addStep (net : Net) (acc : Store) (u : String) : Store :=
  match net u with
  | some r => if respOk r then storePut acc u r else acc
  | none => acc

/-- The fallback of the install handler (lines 59-63): `cache.add(url)` for
each URL independently, `.catch` skipping every individual failure. -/
def addEach (net : Net) (s : Store) (urls : List String) : Store :=
  urls.foldl (addStep net) s

/-- `cache.addAll(urls)`: atomic bulk insert; `none` models the rejected
promise (nothing stored) when any URL fails to fetch with an ok status. -/
def cacheAddAll (net : Net) (s : Store) (urls : List String) : Option Store :=
  if fetchAllOk net urls then some (addEach net s urls) else none

/-- Store-level effect of the install handler on the opened cache (lines
53-64): try the atomic `addAll`, and on rejection fall back to adding each
URL independently, skipping failures. -/
def installStoreWith (net : Net) (s : Store) (urls : List String) : Store :=
  match cacheAddAll net s urls with
  | some s' => s'
  | none => addEach net s urls

/-- The install handler (lines 48-71) with an explicit manifest:
`caches.open(CACHE_NAME)` then precache the manifest into it. -/
def installCachesWith (net : Net) (c : Caches) (urls : List String) : Caches :=
  cachesUpdateStore c CACHE_NAME (fun s => installStoreWith net s urls)

/-- The install handler as shipped, with the fixed `PRECACHE_URLS`. -/
def installCaches (net : Net) (c : Caches) : Caches :=
  installCachesWith net c PRECACHE_URLS

/-- The activate handler (lines 74-92): enumerate the cache names, keep
`CACHE_NAME`, delete every other named store. -/
def activate (c : Caches) : Caches :=
  ((c.map Prod.fst).filter (fun n => n ≠ CACHE_NAME)).foldl cachesDelete c

/-- A pending fire-and-forget cache write scheduled by the fetch path. -/
structure Task where
  cacheName : String
  key : String
  resp : Response
deriving DecidableEq, Repr

/-- Settle one pending write against the cache storage. -/
def runTask (c : Caches) (t : Task) : Caches :=
  cachesPut c t.cacheName t.key t.resp

/-- Settle a list of pending writes in order. -/
def runTasks (c : Caches) (ts : List Task) : Caches :=
  ts.foldl runTask c

/-- `fetchAndCache(request)` (lines 135-156): fetch from the network; a
response that is not status 200 or not type `"basic"` is returned uncached;
otherwise, when the URL matches a cacheable pattern, a clone is scheduled to
be stored (fire-and-forget `caches.open(...).then(put)`) and the response is
returned. `none` in the first component models the rejected fetch promise. -/
def fetchAndCache (net : Net) (req : Request) :
    Option Response × List Task :=
  match net req.url with
  | none => (none, [])
  | some response =>
    if response.status ≠ 200 ∨ response.rtype ≠ "basic" then
      (some response, [])
    else if isCacheable req.url then
      (some response, [Task.mk CACHE_NAME req.url response])
    else
      (some response, [])

/-- `updateCacheInBackground(request)` (lines 159-169): fire-and-forget
refresh fetch; on status 200 schedule an overwrite of the stored entry; any
failure is swallowed by the `.catch`. -/
def updateCacheInBackground (net : Net) (req : Request) : List Task :=
  match net req.url with
  | none => []
  | some response =>
    if response.status = 200 then [Task.mk CACHE_NAME req.url response]
    else []

/-- Outcome of one dispatch of the fetch handler. `intercepted` records
whether `event.respondWith` was called; `response` is the value the
`respondWith` promise resolves to (`none` models resolving with
`undefined`); `tasks` are the scheduled fire-and-forget writes; `reads` are
the cache-storage lookups performed, by key. -/
structure FetchResult where
  intercepted : Bool
  response : Option Response
  tasks : List Task
  reads : List String
deriving DecidableEq, Repr

/-- Result of the non-intervention paths (lines 100-110): the request passes
through to the network untouched, no cache read, no cache write. -/
def passThrough : FetchResult :=
  FetchResult.mk false none [] []

/-- `new Response('Offline', { status: 503 })` (line 129). -/
def offlineResponse : Response :=
  Response.mk 503 "default" "Offline"

/-- The fetch handler (lines 95-132), with `o` the worker's own origin
(`self.location.origin`). Non-GET, never-cache and cross-origin requests
pass through. Otherwise: on hit, respond with the cached entry and schedule
a background refresh; on miss, `fetchAndCache`; when the miss fetch rejects,
the `.catch` answers navigations with `caches.match('/index.html')` and
everything else with the synthetic offline response. -/
def handleFetch (net : Net) (o : String) (c : Caches) (req : Request) :
    FetchResult :=
  if req.method ≠ "GET" then passThrough
  else if neverCache req.url then passThrough
  else if req.origin ≠ o then passThrough
  else
    match cachesMatchAll c req.url with
    | some cachedResponse =>
      FetchResult.mk true (some cachedResponse)
        (updateCacheInBackground net req) [req.url]
    | none =>
      match fetchAndCache net req with
      | (some r, ts) => FetchResult.mk true (some r) ts [req.url]
      | (none, ts) =>
        if req.mode = "navigate" then
          FetchResult.mk true (cachesMatchAll c "/index.html") ts
            [req.url, "/index.html"]
        else
          FetchResult.mk true (some offlineResponse) ts [req.url]

/-- The fallback chain the fetch handler implements for an intercepted
request: the cross-store cache lookup first, then the live network
response, then — for navigations — the stored entry for `/index.html`
(possibly absent), and a synthetic 503 response for everything else. -/
def fallbackChain (net : Net) (c : Caches) (req : Request) :
    Option Response :=
  match cachesMatchAll c req.url with
  | some cr => some cr
  | none =>
    match net req.url with
    | some nr => some nr
    | none =>
      if req.mode = "navigate" then cachesMatchAll c "/index.html"
      else some offlineResponse

/-- The message handler (lines 172-182): `clearCache` deletes `CACHE_NAME`;
`skipWaiting` and every other message leave the cache storage untouched. -/
def handleMessage (c : Caches) (msg : String) : Caches :=
  if msg = "clearCache" then cachesDelete c CACHE_NAME else c

/-- Keys currently precached in the worker's own store. -/
def currentKeys (c : Caches) : List String :=
  ((cachesGet c CACHE_NAME).getD []).map Prod.fst

/-! Concrete fixtures used by the scenario theorems below. -/

/-- The worker's own origin in the concrete scenarios. -/
def origin1 : String := "https://app.example"

/-- A status-200 response whose `type` is `"cors"`, not `"basic"`. -/
def rCors : Response := Response.mk 200 "cors" "x"

/-- A previously stored basic entry. -/
def rOld : Response := Response.mk 200 "basic" "old"

/-- Network oracle serving `/a.js` with the cors-typed response. -/
def net1 : Net := fun u => if u = "/a.js" then some rCors else none

/-- A same-origin GET request for `/a.js`. -/
def req1 : Request := Request.mk "GET" "/a.js" origin1 "no-cors"

/-- A cache storage whose own store already holds `/a.js`. -/
def c1 : Caches := [(CACHE_NAME, [("/a.js", rOld)])]

/-- Network oracle on which every fetch rejects. -/
def netNone : Net := fun _ => none

/-- A same-origin navigation request. -/
def reqNav : Request := Request.mk "GET" "/page" origin1 "navigate"

/-- A valid basic response for `/a.js`. -/
def rBody : Response := Response.mk 200 "basic" "body"

/-- Network oracle serving `/a.js` with the basic response. -/
def net3 : Net := fun u => if u = "/a.js" then some rBody else none

/-- An entry left behind by an older cache generation. -/
def rStale : Response := Response.mk 200 "basic" "stale"

/-- A cache storage where an older-generation store precedes the worker's
own (empty) store and still holds an entry for `/a.js`. -/
def cOldGen : Caches := [("old-v0", [("/a.js", rStale)]), (CACHE_NAME, [])]

/-- Precached root document in the install scenario. -/
def rRoot : Response := Response.mk 200 "basic" "root"

/-- Precached index document in the install scenario. -/
def rIdx : Response := Response.mk 200 "basic" "idx"

/-- Network oracle of the install scenario: `/` and `/index.html` fetch
successfully, `/style.css` (and everything else) rejects. -/
def net5 : Net := fun u =>
  if u = "/" then some rRoot
  else if u = "/index.html" then some rIdx
  else none

/-- The install scenario's manifest. -/
def m5 : List String := ["/", "/index.html", "/style.css"]

/-- A non-GET request. -/
def reqPost : Request := Request.mk "POST" "/a.js" origin1 "no-cors"

/-- The cached entry for `/application.js` in the refresh-failure
scenario. -/
def rApp : Response := Response.mk 200 "basic" "app"

/-- A same-origin GET request for `/application.js`. -/
def reqApp : Request := Request.mk "GET" "/application.js" origin1 "no-cors"

/-- A cache storage whose own store holds `/application.js`. -/
def cApp : Caches := [(CACHE_NAME, [("/application.js", rApp)])]

/-! Helper lemmas about the store and cache-storage primitives. -/

/-- Putting a key makes the key match that value. -/
theorem storeMatch_storePut_self (s : Store) (k : String) (r : Response) :
    storeMatch (storePut s k r) k = some r := by
  induction s with
  | nil => simp [storePut, storeMatch]
  | cons hd tl ih =>
    rcases hd with ⟨k0, v⟩
    by_cases h : k0 = k
    · simp [storePut, storeMatch, h]
    · simp [storePut, storeMatch, h, ih]

/-- Keys after a put: the put key together with the previous keys. -/
theorem mem_keys_storePut (s : Store) (k : String) (r : Response)
    (a : String) :
    a ∈ (storePut s k r).map Prod.fst ↔ a = k ∨ a ∈ s.map Prod.fst := by
  induction s with
  | nil => simp [storePut]
  | cons hd tl ih =>
    rcases hd with ⟨k0, v⟩
    by_cases h : k0 = k
    · subst h
      simp [storePut]
    · simp [storePut, h, ih]
      tauto

/-- Entries after a put come from the put pair or from the old store. -/
theorem mem_storePut (s : Store) (k : String) (r : Response)
    (q : String × Response) (hq : q ∈ storePut s k r) :
    q = (k, r) ∨ q ∈ s := by
  induction s with
  | nil =>
    simp [storePut] at hq
    tauto
  | cons hd tl ih =>
    rcases hd with ⟨k0, v⟩
    by_cases h : k0 = k
    · subst h
      simp [storePut] at hq
      rcases hq with hq | hq
      · left; rw [hq]
      · right; simp [hq]
    · simp [storePut, h] at hq
      rcases hq with hq | hq
      · right; simp [hq]
      · rcases ih hq with h1 | h1
        · left; exact h1
        · right; simp [h1]

/-- Updating a named store changes exactly that name's binding. -/
theorem cachesGet_cachesUpdateStore_self (c : Caches) (name : String)
    (f : Store → Store) :
    cachesGet (cachesUpdateStore c name f) name =
      some (f ((cachesGet c name).getD [])) := by
  induction c with
  | nil => simp [cachesUpdateStore, cachesGet]
  | cons hd tl ih =>
    rcases hd with ⟨n, s⟩
    by_cases h : n = name
    · simp [cachesUpdateStore, cachesGet, h]
    · simp [cachesUpdateStore, cachesGet, h, ih]

/-- Updating a named store leaves every other name's binding unchanged. -/
theorem cachesGet_cachesUpdateStore_ne (c : Caches) (name : String)
    (f : Store → Store) (n : String) (hn : n ≠ name) :
    cachesGet (cachesUpdateStore c name f) n = cachesGet c n := by
  induction c with
  | nil => simp [cachesUpdateStore, cachesGet, Ne.symm hn]
  | cons hd tl ih =>
    rcases hd with ⟨m, s⟩
    by_cases h : m = name
    · subst h
      simp [cachesUpdateStore, cachesGet, Ne.symm hn]
    · by_cases h2 : m = n
      · simp [cachesUpdateStore, cachesGet, h, h2, hn]
      · simp [cachesUpdateStore, cachesGet, h, h2, ih]

/-- Names after updating a named store. -/
theorem mem_keys_cachesUpdateStore (c : Caches) (name : String)
    (f : Store → Store) (n : String) :
    n ∈ (cachesUpdateStore c name f).map Prod.fst ↔
      n = name ∨ n ∈ c.map Prod.fst := by
  induction c with
  | nil => simp [cachesUpdateStore]
  | cons hd tl ih =>
    rcases hd with ⟨m, s⟩
    by_cases h : m = name
    · subst h
      simp [cachesUpdateStore]
    · simp [cachesUpdateStore, h, ih]
      tauto

/-- A put key is found by the cross-store lookup when no store held it. -/
theorem cachesMatchAll_cachesPut_of_none (c : Caches) (n k : String)
    (r : Response) (h : cachesMatchAll c k = none) :
    cachesMatchAll (cachesPut c n k r) k = some r := by
  induction c with
  | nil =>
    simp [cachesPut, cachesUpdateStore, cachesMatchAll, storePut, storeMatch]
  | cons hd tl ih =>
    rcases hd with ⟨m, s⟩
    rcases hsm : storeMatch s k with _ | r0
    · by_cases hm : m = n
      · simp [cachesPut, cachesUpdateStore, cachesMatchAll, hm,
          storeMatch_storePut_self]
      · simp [cachesMatchAll, hsm] at h
        simp [cachesPut, cachesUpdateStore, cachesMatchAll, hm, hsm]
        exact ih h
    · simp [cachesMatchAll, hsm] at h

/-- The response side of `fetchAndCache` is exactly the network's answer. -/
theorem fetchAndCache_fst (net : Net) (req : Request) :
    (fetchAndCache net req).1 = net req.url := by
  unfold fetchAndCache
  rcases net req.url with _ | r
  · rfl
  · dsimp only
    split
    · rfl
    · split <;> rfl

/-- Deleting a list of names is filtering out the entries so named. -/
theorem foldl_cachesDelete_eq_filter (ds : List String) (c : Caches) :
    ds.foldl cachesDelete c = c.filter (fun p => decide (p.1 ∉ ds)) := by
  induction ds generalizing c with
  | nil => simp
  | cons d ds ih =>
    simp only [List.foldl_cons]
    rw [ih]
    unfold cachesDelete
    rw [List.filter_filter]
    apply List.filter_congr
    intro x hx
    simp [List.mem_cons, not_or, Bool.and_comm]

/-- The activate handler keeps exactly the entries named `CACHE_NAME`. -/
theorem activate_eq_filter (c : Caches) :
    activate c = c.filter (fun p => decide (p.1 = CACHE_NAME)) := by
  unfold activate
  rw [foldl_cachesDelete_eq_filter]
  apply List.filter_congr
  intro x hx
  have hx1 : x.1 ∈ c.map Prod.fst := List.mem_map_of_mem Prod.fst hx
  by_cases h : x.1 = CACHE_NAME
  · simp [h]
  · simp [h, List.mem_filter, hx1]

/-- Membership in the activated cache storage. -/
theorem mem_activate (c : Caches) (p : String × Store) :
    p ∈ activate c ↔ p ∈ c ∧ p.1 = CACHE_NAME := by
  rw [activate_eq_filter]
  simp [List.mem_filter]

/-- Settling tasks that all target other names leaves a name's binding
unchanged. -/
theorem cachesGet_runTasks_ne (ts : List Task) (c : Caches) (n : String)
    (h : ∀ t ∈ ts, t.cacheName ≠ n) :
    cachesGet (runTasks c ts) n = cachesGet c n := by
  induction ts generalizing c with
  | nil => rfl
  | cons t ts ih =>
    have h1 : t.cacheName ≠ n := h t (List.mem_cons_self t ts)
    have h2 : ∀ t2 ∈ ts, t2.cacheName ≠ n :=
      fun t2 ht2 => h t2 (List.mem_cons_of_mem t ht2)
    calc cachesGet (runTasks (runTask c t) ts) n
        = cachesGet (runTask c t) n := ih (runTask c t) h2
      _ = cachesGet c n := by
          unfold runTask cachesPut
          exact cachesGet_cachesUpdateStore_ne c t.cacheName _ n
            (fun he => h1 he.symm)

/-- Every task scheduled by the miss path carries status 200, type
`"basic"`, and targets `CACHE_NAME`. -/
theorem fetchAndCache_tasks (net : Net) (req : Request) (t : Task)
    (ht : t ∈ (fetchAndCache net req).2) :
    t.cacheName = CACHE_NAME ∧ t.resp.status = 200 ∧
      t.resp.rtype = "basic" := by
  unfold fetchAndCache at ht
  rcases hn : net req.url with _ | r
  · rw [hn] at ht
    simp at ht
  · rw [hn] at ht
    dsimp only at ht
    by_cases hv : r.status ≠ 200 ∨ r.rtype ≠ "basic"
    · rw [if_pos hv] at ht
      simp at ht
    · rw [if_neg hv] at ht
      push_neg at hv
      by_cases hc : isCacheable req.url = true
      · rw [if_pos hc] at ht
        simp at ht
        rw [ht]
        exact ⟨rfl, hv.1, hv.2⟩
      · rw [if_neg hc] at ht
        simp at ht

/-- Every task scheduled by the background refresh carries status 200 and
targets `CACHE_NAME`. -/
theorem updateCacheInBackground_tasks (net : Net) (req : Request) (t : Task)
    (ht : t ∈ updateCacheInBackground net req) :
    t.cacheName = CACHE_NAME ∧ t.resp.status = 200 := by
  unfold updateCacheInBackground at ht
  rcases hn : net req.url with _ | r
  · rw [hn] at ht
    simp at ht
  · rw [hn] at ht
    dsimp only at ht
    by_cases hs : r.status = 200
    · rw [if_pos hs] at ht
      simp at ht
      rw [ht]
      exact ⟨rfl, hs⟩
    · rw [if_neg hs] at ht
      simp at ht

/-- Unfolding one URL of the fallback precache. -/
theorem addEach_cons (net : Net) (s : Store) (u : String)
    (urls : List String) :
    addEach net s (u :: urls) = addEach net (addStep net s u) urls := by
  unfold addEach
  rw [List.foldl_cons]

/-- A rejected fetch leaves the store unchanged. -/
theorem addStep_none (net : Net) (s : Store) (u : String)
    (h : net u = none) : addStep net s u = s := by
  simp [addStep, h]

/-- An ok fetched response is stored. -/
theorem addStep_some_ok (net : Net) (s : Store) (u : String) (r : Response)
    (h : net u = some r) (hok : respOk r = true) :
    addStep net s u = storePut s u r := by
  simp [addStep, h, hok]

/-- A non-ok fetched response is skipped. -/
theorem addStep_some_bad (net : Net) (s : Store) (u : String) (r : Response)
    (h : net u = some r) (hok : ¬ respOk r = true) :
    addStep net s u = s := by
  simp [addStep, h, hok]

/-- Every entry of the fallback precache comes from the prior store or has
an ok status. -/
theorem mem_addEach (net : Net) (urls : List String) (s : Store)
    (q : String × Response) (hq : q ∈ addEach net s urls) :
    q ∈ s ∨ respOk q.2 = true := by
  induction urls generalizing s with
  | nil =>
    unfold addEach at hq
    simp at hq
    exact Or.inl hq
  | cons u urls ih =>
    rw [addEach_cons] at hq
    rcases hn : net u with _ | r
    · rw [addStep_none net s u hn] at hq
      exact ih _ hq
    · by_cases hok : respOk r = true
      · rw [addStep_some_ok net s u r hn hok] at hq
        rcases ih _ hq with h1 | h1
        · rcases mem_storePut s u r q h1 with h2 | h2
          · right
            rw [h2]
            exact hok
          · exact Or.inl h2
        · exact Or.inr h1
      · rw [addStep_some_bad net s u r hn hok] at hq
        exact ih _ hq

/-- Keys present after the fallback precache: the prior keys together with
the manifest URLs whose fetch resolves with an ok status. -/
theorem mem_keys_addEach (net : Net) (urls : List String) (s : Store)
    (a : String) :
    a ∈ (addEach net s urls).map Prod.fst ↔
      a ∈ s.map Prod.fst ∨
        (a ∈ urls ∧ ∃ r, net a = some r ∧ respOk r = true) := by
  induction urls generalizing s with
  | nil =>
    unfold addEach
    simp
  | cons u urls ih =>
    rw [addEach_cons]
    rcases hn : net u with _ | r
    · rw [addStep_none net s u hn, ih]
      have hP : a = u → ¬ ∃ r2, net a = some r2 ∧ respOk r2 = true := by
        rintro rfl ⟨r2, hr2, _⟩
        rw [hn] at hr2
        cases hr2
      simp only [List.mem_cons]
      constructor
      · rintro (h1 | ⟨h1, h2⟩)
        · exact Or.inl h1
        · exact Or.inr ⟨Or.inr h1, h2⟩
      · rintro (h1 | ⟨rfl | h1, h2⟩)
        · exact Or.inl h1
        · exact absurd h2 (hP rfl)
        · exact Or.inr ⟨h1, h2⟩
    · by_cases hok : respOk r = true
      · rw [addStep_some_ok net s u r hn hok, ih]
        simp only [mem_keys_storePut, List.mem_cons]
        constructor
        · rintro ((rfl | h1) | ⟨h1, h2⟩)
          · exact Or.inr ⟨Or.inl rfl, r, hn, hok⟩
          · exact Or.inl h1
          · exact Or.inr ⟨Or.inr h1, h2⟩
        · rintro (h1 | ⟨rfl | h1, h2⟩)
          · exact Or.inl (Or.inr h1)
          · exact Or.inl (Or.inl rfl)
          · exact Or.inr ⟨h1, h2⟩
      · rw [addStep_some_bad net s u r hn hok, ih]
        have hP : a = u → ¬ ∃ r2, net a = some r2 ∧ respOk r2 = true := by
          rintro rfl ⟨r2, hr2, hok2⟩
          rw [hn] at hr2
          cases hr2
          exact hok hok2
        simp only [List.mem_cons]
        constructor
        · rintro (h1 | ⟨h1, h2⟩)
          · exact Or.inl h1
          · exact Or.inr ⟨Or.inr h1, h2⟩
        · rintro (h1 | ⟨rfl | h1, h2⟩)
          · exact Or.inl h1
          · exact absurd h2 (hP rfl)
          · exact Or.inr ⟨h1, h2⟩

/-- The two branches of the install handler have the same store effect:
when the atomic bulk insert succeeds it stores exactly what the per-URL
fold stores, so the result is always the per-URL fold. -/
theorem installStoreWith_eq_addEach (net : Net) (s : Store)
    (urls : List String) :
    installStoreWith net s urls = addEach net s urls := by
  unfold installStoreWith cacheAddAll
  by_cases h : fetchAllOk net urls = true
  · rw [if_pos h]
  · rw [if_neg h]

/-- A rejected fetch makes `fetchAndCache` propagate the rejection and
schedule nothing. -/
theorem fetchAndCache_none (net : Net) (req : Request)
    (hn : net req.url = none) : fetchAndCache net req = (none, []) := by
  unfold fetchAndCache
  rw [hn]

/-- A rejected refresh fetch schedules nothing. -/
theorem updateCacheInBackground_none (net : Net) (req : Request)
    (hn : net req.url = none) : updateCacheInBackground net req = [] := by
  unfold updateCacheInBackground
  rw [hn]

/-- Non-GET, never-cache and cross-origin requests pass through: the
handler does not intercept, reads nothing and schedules no write. -/
theorem handleFetch_passThrough (net : Net) (o : String) (c : Caches)
    (req : Request)
    (h : req.method ≠ "GET" ∨ neverCache req.url = true ∨ req.origin ≠ o) :
    handleFetch net o c req = passThrough := by
  rcases h with h | h | h
  · unfold handleFetch
    rw [if_pos h]
  · unfold handleFetch
    by_cases g1 : req.method ≠ "GET"
    · rw [if_pos g1]
    · rw [if_neg g1, if_pos h]
  · unfold handleFetch
    by_cases g1 : req.method ≠ "GET"
    · rw [if_pos g1]
    · rw [if_neg g1]
      by_cases g2 : neverCache req.url = true
      · rw [if_pos g2]
      · rw [if_neg g2, if_pos h]

/-- On a hit the handler serves the cached entry and schedules the
background refresh. -/
theorem handleFetch_hit (net : Net) (o : String) (c : Caches)
    (req : Request) (cr : Response) (h1 : req.method = "GET")
    (h2 : neverCache req.url = false) (h3 : req.origin = o)
    (hcm : cachesMatchAll c req.url = some cr) :
    handleFetch net o c req =
      FetchResult.mk true (some cr) (updateCacheInBackground net req)
        [req.url] := by
  unfold handleFetch
  rw [if_neg (by simp [h1]), if_neg (by simp [h2]), if_neg (by simp [h3]),
    hcm]

/-- On a miss whose fetch resolves, the handler serves the network
response and schedules whatever the miss path scheduled. -/
theorem handleFetch_miss (net : Net) (o : String) (c : Caches)
    (req : Request) (r : Response) (h1 : req.method = "GET")
    (h2 : neverCache req.url = false) (h3 : req.origin = o)
    (hcm : cachesMatchAll c req.url = none)
    (hn : net req.url = some r) :
    handleFetch net o c req =
      FetchResult.mk true (some r) (fetchAndCache net req).2 [req.url] := by
  unfold handleFetch
  rw [if_neg (by simp [h1]), if_neg (by simp [h2]), if_neg (by simp [h3]),
    hcm]
  rcases hfc : fetchAndCache net req with ⟨fst, ts⟩
  have h0 := fetchAndCache_fst net req
  rw [hfc, hn] at h0
  simp only [Prod.fst] at h0
  subst h0
  rfl

/-- On a miss whose fetch rejects, the handler answers navigations with the
cross-store lookup of `/index.html` and everything else with the synthetic
offline response; no write is scheduled. -/
theorem handleFetch_totalfail (net : Net) (o : String) (c : Caches)
    (req : Request) (h1 : req.method = "GET")
    (h2 : neverCache req.url = false) (h3 : req.origin = o)
    (hcm : cachesMatchAll c req.url = none)
    (hn : net req.url = none) :
    handleFetch net o c req =
      if req.mode = "navigate" then
        FetchResult.mk true (cachesMatchAll c "/index.html") []
          [req.url, "/index.html"]
      else
        FetchResult.mk true (some offlineResponse) [] [req.url] := by
  unfold handleFetch
  rw [if_neg (by simp [h1]), if_neg (by simp [h2]), if_neg (by simp [h3]),
    hcm, fetchAndCache_none net req hn]

/-- The fallback chain on a hit. -/
theorem fallbackChain_hit (net : Net) (c : Caches) (req : Request)
    (cr : Response) (hcm : cachesMatchAll c req.url = some cr) :
    fallbackChain net c req = some cr := by
  unfold fallbackChain
  rw [hcm]

/-- The fallback chain on a miss whose fetch resolves. -/
theorem fallbackChain_miss_some (net : Net) (c : Caches) (req : Request)
    (nr : Response) (hcm : cachesMatchAll c req.url = none)
    (hn : net req.url = some nr) :
    fallbackChain net c req = some nr := by
  unfold fallbackChain
  rw [hcm, hn]

/-- The fallback chain on total failure. -/
theorem fallbackChain_miss_none (net : Net) (c : Caches) (req : Request)
    (hcm : cachesMatchAll c req.url = none) (hn : net req.url = none) :
    fallbackChain net c req =
      if req.mode = "navigate" then cachesMatchAll c "/index.html"
      else some offlineResponse := by
  unfold fallbackChain
  rw [hcm, hn]

/-- Every write the fetch handler schedules targets the worker's own
store. -/
theorem handleFetch_tasks_name (net : Net) (o : String) (c : Caches)
    (req : Request) (t : Task)
    (ht : t ∈ (handleFetch net o c req).tasks) :
    t.cacheName = CACHE_NAME := by
  by_cases g1 : req.method ≠ "GET"
  · rw [handleFetch_passThrough net o c req (Or.inl g1)] at ht
    simp [passThrough] at ht
  by_cases g2 : neverCache req.url = true
  · rw [handleFetch_passThrough net o c req (Or.inr (Or.inl g2))] at ht
    simp [passThrough] at ht
  by_cases g3 : req.origin ≠ o
  · rw [handleFetch_passThrough net o c req (Or.inr (Or.inr g3))] at ht
    simp [passThrough] at ht
  have h1 : req.method = "GET" := not_not.mp g1
  have h2 : neverCache req.url = false := by
    rw [Bool.not_eq_true] at g2
    exact g2
  have h3 : req.origin = o := not_not.mp g3
  rcases hcm : cachesMatchAll c req.url with _ | cr
  · rcases hn : net req.url with _ | r
    · rw [handleFetch_totalfail net o c req h1 h2 h3 hcm hn] at ht
      by_cases hm : req.mode = "navigate"
      · rw [if_pos hm] at ht
        simp at ht
      · rw [if_neg hm] at ht
        simp at ht
    · rw [handleFetch_miss net o c req r h1 h2 h3 hcm hn] at ht
      exact (fetchAndCache_tasks net req t ht).1
  · rw [handleFetch_hit net o c req cr h1 h2 h3 hcm] at ht
    exact (updateCacheInBackground_tasks net req t ht).1

/-! The claims. -/

/-- C1 counterexample: the background-refresh path violates the claimed
write invariant. With the entry for `/a.js` cached and the refresh fetch
resolving with a status-200 response of type `"cors"`, the hit path
schedules a write of that response, and after the write settles the store
holds an entry whose type is not `"basic"`. -/
theorem C1_cex :
    (handleFetch net1 origin1 c1 req1).tasks =
      [Task.mk CACHE_NAME "/a.js" rCors] ∧
    cachesMatchAll (runTasks c1 (handleFetch net1 origin1 c1 req1).tasks)
      "/a.js" = some rCors ∧
    rCors.rtype ≠ "basic" :=
  ⟨by decide, by decide, by decide⟩

/-- C1 (amended): the store-on-miss path writes only entries with status
200 and type `"basic"`; the background-refresh path checks only status 200
(so an entry of a different type can be written there); the precache path
writes only fetched entries with an ok (2xx) status. -/
theorem C1_amended :
    ∀ (net : Net) (req : Request) (s : Store) (urls : List String),
      ((fetchAndCache net req).2.all
        (fun t => decide (t.resp.status = 200) &&
          decide (t.resp.rtype = "basic") &&
          decide (t.cacheName = CACHE_NAME))) = true ∧
      ((updateCacheInBackground net req).all
        (fun t => decide (t.resp.status = 200) &&
          decide (t.cacheName = CACHE_NAME))) = true ∧
      ((installStoreWith net s urls).all
        (fun p => respOk p.2 || decide (p ∈ s))) = true := by
  intro net req s urls
  refine ⟨?_, ?_, ?_⟩
  · rw [List.all_eq_true]
    intro t ht
    obtain ⟨ha, hb, hc⟩ := fetchAndCache_tasks net req t ht
    simp [ha, hb, hc]
  · rw [List.all_eq_true]
    intro t ht
    obtain ⟨ha, hb⟩ := updateCacheInBackground_tasks net req t ht
    simp [ha, hb]
  · rw [List.all_eq_true]
    intro p hp
    rw [installStoreWith_eq_addEach] at hp
    rcases mem_addEach net urls s p hp with h | h
    · simp [h]
    · simp [h]

/-- C2 counterexample: a same-origin navigation GET with an empty cache
storage and a failing network is intercepted but resolves with no response
at all — the offline document fallback also misses, so the request is left
unanswered (a network error), not answered by any of the four claimed
response kinds. -/
theorem C2_cex :
    (handleFetch netNone origin1 [] reqNav).intercepted = true ∧
    (handleFetch netNone origin1 [] reqNav).response = none :=
  ⟨by decide, by decide⟩

/-- C2 (amended): every intercepted request resolves to the fallback
chain's value — the cached entry on hit, the live network response on miss,
and on total failure the stored `/index.html` entry for navigations (which
can be absent, in which case the request resolves with no response) or the
synthetic 503 response for non-navigations. -/
theorem C2_amended :
    ∀ (net : Net) (o : String) (c : Caches) (req : Request),
      (handleFetch net o c req).intercepted = true →
      (handleFetch net o c req).response = fallbackChain net c req := by
  intro net o c req hint
  by_cases g1 : req.method ≠ "GET"
  · rw [handleFetch_passThrough net o c req (Or.inl g1)] at hint
    simp [passThrough] at hint
  by_cases g2 : neverCache req.url = true
  · rw [handleFetch_passThrough net o c req (Or.inr (Or.inl g2))] at hint
    simp [passThrough] at hint
  by_cases g3 : req.origin ≠ o
  · rw [handleFetch_passThrough net o c req (Or.inr (Or.inr g3))] at hint
    simp [passThrough] at hint
  have h1 : req.method = "GET" := not_not.mp g1
  have h2 : neverCache req.url = false := by
    rw [Bool.not_eq_true] at g2
    exact g2
  have h3 : req.origin = o := not_not.mp g3
  rcases hcm : cachesMatchAll c req.url with _ | cr
  · rcases hn : net req.url with _ | nr
    · rw [handleFetch_totalfail net o c req h1 h2 h3 hcm hn,
        fallbackChain_miss_none net c req hcm hn]
      by_cases hm : req.mode = "navigate"
      · rw [if_pos hm, if_pos hm]
      · rw [if_neg hm, if_neg hm]
    · rw [handleFetch_miss net o c req nr h1 h2 h3 hcm hn,
        fallbackChain_miss_some net c req nr hcm hn]
  · rw [handleFetch_hit net o c req cr h1 h2 h3 hcm,
      fallbackChain_hit net c req cr hcm]

/-- C2 witness: on a concrete same-origin GET miss with a resolving fetch,
the amended theorem yields the live network response. -/
theorem C2_witness :
    (handleFetch net3 origin1 [] req1).response = some rBody :=
  (C2_amended net3 origin1 [] req1 (by decide)).trans (by decide)

/-- C3 counterexample: on a concrete miss of a cacheable URL with a valid
(200, `"basic"`) response, the handler returns the response while the
store write is still pending — at the moment the response is returned the
cache storage is unchanged and holds no entry for the request, so the copy
is not stored before the response is returned. -/
theorem C3_cex :
    (handleFetch net3 origin1 [] req1).response = some rBody ∧
    (handleFetch net3 origin1 [] req1).tasks =
      [Task.mk CACHE_NAME "/a.js" rBody] ∧
    cachesMatchAll ([] : Caches) "/a.js" = none :=
  ⟨by decide, by decide, by decide⟩

/-- C3 (amended): on a miss the handler fetches from the network and
returns the response regardless of cacheability; when the response has
status 200 and type `"basic"` and the URL matches a cacheable pattern, a
copy is scheduled as a fire-and-forget write (not awaited before the
response is returned), and once that write settles a match for the request
returns a stored entry equal to the served response. -/
theorem C3_amended :
    ∀ (net : Net) (o : String) (c : Caches) (req : Request) (r : Response),
      req.method = "GET" → neverCache req.url = false → req.origin = o →
      cachesMatchAll c req.url = none → net req.url = some r →
      (handleFetch net o c req).response = some r ∧
      (r.status = 200 → r.rtype = "basic" → isCacheable req.url = true →
        cachesMatchAll (runTasks c (handleFetch net o c req).tasks)
          req.url = some r) := by
  intro net o c req r h1 h2 h3 hcm hn
  rw [handleFetch_miss net o c req r h1 h2 h3 hcm hn]
  refine ⟨rfl, ?_⟩
  intro hs hb hc
  have hfc : fetchAndCache net req =
      (some r, [Task.mk CACHE_NAME req.url r]) := by
    simp [fetchAndCache, hn, hs, hb, hc]
  rw [hfc]
  exact cachesMatchAll_cachesPut_of_none c CACHE_NAME req.url r hcm

/-- C3 witness: the amended theorem at the concrete miss scenario — the
served response and, after the pending write settles, the stored entry. -/
theorem C3_witness :
    (handleFetch net3 origin1 [] req1).response = some rBody ∧
    cachesMatchAll (runTasks [] (handleFetch net3 origin1 [] req1).tasks)
      "/a.js" = some rBody := by
  obtain ⟨ha, hb⟩ := C3_amended net3 origin1 [] req1 rBody rfl (by decide)
    rfl (by decide) (by decide)
  exact ⟨ha, hb (by decide) (by decide) (by decide)⟩

/-- C4 counterexample: the interceptor's lookup is `caches.match`, which
searches every named cache. With the worker's own store present but empty
and an older-generation store `old-v0` holding `/a.js`, the intercepted
request is served the older generation's entry. -/
theorem C4_cex :
    cachesGet cOldGen CACHE_NAME = some [] ∧
    (handleFetch netNone origin1 cOldGen req1).response = some rStale :=
  ⟨by decide, by decide⟩

/-- C4 (amended): the interceptor's cache lookup is an exact-key search
across ALL named stores in creation order (first match wins) — not the
current store only — and on a hit the handler serves exactly that lookup's
result, which can therefore come from an older-generation store. -/
theorem C4_amended :
    (∀ (c : Caches) (k : String),
      cachesMatchAll c k = c.findSome? (fun p => storeMatch p.2 k)) ∧
    (∀ (net : Net) (o : String) (c : Caches) (req : Request)
      (cr : Response),
      req.method = "GET" → neverCache req.url = false → req.origin = o →
      cachesMatchAll c req.url = some cr →
      (handleFetch net o c req).response = some cr) := by
  constructor
  · intro c k
    induction c with
    | nil => rfl
    | cons hd tl ih =>
      rcases hd with ⟨n, s⟩
      rcases hsm : storeMatch s k with _ | r
      · simp [cachesMatchAll, hsm, List.findSome?_cons, ih]
      · simp [cachesMatchAll, hsm, List.findSome?_cons]
  · intro net o c req cr h1 h2 h3 hcm
    rw [handleFetch_hit net o c req cr h1 h2 h3 hcm]

/-- C4 witness: the amended theorem serves the older-generation entry for
a request whose key is absent from the (empty) current store. -/
theorem C4_witness :
    (handleFetch netNone origin1 cOldGen req1).response = some rStale :=
  C4_amended.2 netNone origin1 cOldGen req1 rStale rfl (by decide) rfl
    (by decide)

/-- C5: when the atomic bulk insert fails, install falls back to inserting
each manifest URL independently, tolerating individual failures; in the
concrete scenario (manifest `/`, `/index.html`, `/style.css` with the
`/style.css` fetch failing) install completes with exactly `/` and
`/index.html` stored, and activation proceeds, leaving that store as the
only one. -/
theorem C5_install_fallback :
    (∀ (net : Net) (s : Store) (urls : List String),
      fetchAllOk net urls = false →
      installStoreWith net s urls = addEach net s urls) ∧
    fetchAllOk net5 m5 = false ∧
    installCachesWith net5 [] m5 =
      [(CACHE_NAME, [("/", rRoot), ("/index.html", rIdx)])] ∧
    activate (installCachesWith net5 [] m5) =
      [(CACHE_NAME, [("/", rRoot), ("/index.html", rIdx)])] := by
  refine ⟨?_, by decide, by decide, by decide⟩
  intro net s urls h
  unfold installStoreWith cacheAddAll
  rw [if_neg (by simp [h])]

/-- C5 witness: the fallback clause of the theorem applied to the concrete
failing manifest. -/
theorem C5_witness :
    installStoreWith net5 ([] : Store) m5 = addEach net5 [] m5 :=
  C5_install_fallback.1 net5 [] m5 (by decide)

/-- C6: after install and then activate, the existing store names are
exactly `CACHE_NAME` — whatever stores earlier generations had created
beforehand, none of their names survives. -/
theorem C6_rollover :
    ∀ (net : Net) (c : Caches) (n : String),
      n ∈ (activate (installCaches net c)).map Prod.fst ↔
        n = CACHE_NAME := by
  intro net c n
  constructor
  · intro h
    rcases List.mem_map.mp h with ⟨p, hp, rfl⟩
    exact ((mem_activate _ p).mp hp).2
  · rintro rfl
    have h1 : CACHE_NAME ∈ (installCaches net c).map Prod.fst := by
      unfold installCaches installCachesWith
      exact (mem_keys_cachesUpdateStore c CACHE_NAME _ CACHE_NAME).mpr
        (Or.inl rfl)
    rcases List.mem_map.mp h1 with ⟨p, hp, hpeq⟩
    exact List.mem_map.mpr ⟨p, (mem_activate _ p).mpr ⟨hp, hpeq⟩, hpeq⟩

/-- C7: for non-GET requests, requests matching a never-cache pattern, and
cross-origin requests, the interceptor does not intervene: no store read,
no store write, no interception — the request passes through unmodified. -/
theorem C7_no_intervention :
    ∀ (net : Net) (o : String) (c : Caches) (req : Request),
      (req.method ≠ "GET" ∨ neverCache req.url = true ∨ req.origin ≠ o) →
      handleFetch net o c req = FetchResult.mk false none [] [] := by
  intro net o c req h
  rw [handleFetch_passThrough net o c req h]
  rfl

/-- C7 witness: a concrete POST request passes through untouched. -/
theorem C7_witness :
    handleFetch netNone origin1 cApp reqPost =
      FetchResult.mk false none [] [] :=
  C7_no_intervention netNone origin1 cApp reqPost (Or.inl (by decide))

/-- C8: install is idempotent on the precached key set — for any fixed
network outcomes, running install twice leaves the current store with the
same set of keys as running it once. -/
theorem C8_install_idempotent :
    ∀ (net : Net) (c : Caches) (a : String),
      a ∈ currentKeys (installCaches net (installCaches net c)) ↔
        a ∈ currentKeys (installCaches net c) := by
  intro net c a
  unfold currentKeys installCaches installCachesWith
  rw [cachesGet_cachesUpdateStore_self, cachesGet_cachesUpdateStore_self]
  simp only [Option.getD_some]
  rw [installStoreWith_eq_addEach, installStoreWith_eq_addEach,
    mem_keys_addEach, mem_keys_addEach]
  tauto

/-- C9: on a cache hit whose background refresh fetch fails, the caller
receives exactly the cached entry and — once the (empty) set of scheduled
writes settles — the cache storage, hence the stored entry for the
request, is unchanged. -/
theorem C9_refresh_failure :
    ∀ (net : Net) (o : String) (c : Caches) (req : Request)
      (cr : Response),
      req.method = "GET" → neverCache req.url = false → req.origin = o →
      cachesMatchAll c req.url = some cr → net req.url = none →
      (handleFetch net o c req).response = some cr ∧
      runTasks c (handleFetch net o c req).tasks = c := by
  intro net o c req cr h1 h2 h3 hcm hn
  rw [handleFetch_hit net o c req cr h1 h2 h3 hcm]
  refine ⟨rfl, ?_⟩
  rw [updateCacheInBackground_none net req hn]
  rfl

/-- C9 witness: the spec's `/application.js` scenario — hit with failing
refresh; the cached bytes are served and the store is unchanged. -/
theorem C9_witness :
    (handleFetch netNone origin1 cApp reqApp).response = some rApp ∧
    runTasks cApp (handleFetch netNone origin1 cApp reqApp).tasks = cApp :=
  C9_refresh_failure netNone origin1 cApp reqApp rApp rfl (by decide) rfl
    (by decide) rfl

/-- C10: every scheduled write of the miss and refresh paths targets
`CACHE_NAME`; install touches no other name's store; settling a fetch
dispatch's writes touches no other name's store; activation keeps exactly
the entries named `CACHE_NAME` (deleting only other names); and the
message handler deletes `CACHE_NAME` on `clearCache` and nothing
otherwise. -/
theorem C10_single_store :
    (∀ (net : Net) (req : Request) (t : Task),
      t ∈ (fetchAndCache net req).2 → t.cacheName = CACHE_NAME) ∧
    (∀ (net : Net) (req : Request) (t : Task),
      t ∈ updateCacheInBackground net req → t.cacheName = CACHE_NAME) ∧
    (∀ (net : Net) (c : Caches) (n : String), n ≠ CACHE_NAME →
      cachesGet (installCaches net c) n = cachesGet c n) ∧
    (∀ (net : Net) (o : String) (c : Caches) (req : Request) (n : String),
      n ≠ CACHE_NAME →
      cachesGet (runTasks c (handleFetch net o c req).tasks) n =
        cachesGet c n) ∧
    (∀ (c : Caches) (p : String × Store),
      p ∈ activate c ↔ p ∈ c ∧ p.1 = CACHE_NAME) ∧
    (∀ (c : Caches),
      handleMessage c "clearCache" = cachesDelete c CACHE_NAME) ∧
    (∀ (c : Caches) (msg : String), msg ≠ "clearCache" →
      handleMessage c msg = c) := by
  refine ⟨?_, ?_, ?_, ?_, ?_, ?_, ?_⟩
  · intro net req t ht
    exact (fetchAndCache_tasks net req t ht).1
  · intro net req t ht
    exact (updateCacheInBackground_tasks net req t ht).1
  · intro net c n hn
    unfold installCaches installCachesWith
    exact cachesGet_cachesUpdateStore_ne c CACHE_NAME _ n hn
  · intro net o c req n hn
    exact cachesGet_runTasks_ne _ c n
      (fun t ht he => hn (he ▸ handleFetch_tasks_name net o c req t ht))
  · exact mem_activate
  · intro c
    simp [handleMessage]
  · intro c msg hmsg
    simp [handleMessage, hmsg]

/-- C10 witness: concrete instances — `clearCache` deletes the worker's
store, install leaves an unrelated old store's binding unchanged, settling
a hit dispatch's refresh write leaves an old store's binding unchanged, and
an unrecognized message changes nothing. -/
theorem C10_witness :
    handleMessage cApp "clearCache" = cachesDelete cApp CACHE_NAME ∧
    cachesGet (installCaches net5 [("old-v0", [])]) "old-v0" = some [] ∧
    cachesGet (runTasks c1 (handleFetch net1 origin1 c1 req1).tasks)
      "old-v0" = cachesGet c1 "old-v0" ∧
    handleMessage cApp "skipWaiting" = cApp := by
  refine ⟨C10_single_store.2.2.2.2.2.1 cApp, ?_,
    C10_single_store.2.2.2.1 net1 origin1 c1 req1 "old-v0" (by decide),
    C10_single_store.2.2.2.2.2.2 cApp "skipWaiting" (by decide)⟩
  rw [C10_single_store.2.2.1 net5 [("old-v0", [])] "old-v0" (by decide)]
  decide

end BlockTMA
